import Mathlib

/-!
Shallow embedding of the three per-step transition kernels of
src/models.py (stochastic_sir_model, stochastic_sirs_model, dthp_model).

Conventions of the embedding:
* numpy float arithmetic is idealized as exact rational arithmetic (ℚ);
* np.exp is abstracted as an explicit function argument rexp : ℚ → ℚ,
  so that each theorem can state exactly which analytic facts about the
  exponential it uses (positivity, rexp 0 = 1, ...) as hypotheses;
* each random draw (np.random.binomial / poisson / normal) is passed in
  as an explicit outcome; the support of each distribution is expressed
  by predicates (binomSupport, poissonSupport) used as hypotheses when
  a claim quantifies over the possible outcomes of the draws;
* a Python exception (KeyError from param lookup, ValueError raised by
  np.random.poisson on a negative mean, out-of-range .iloc access) is
  modelled by the kernel returning none; a normal return is some _.
-/

/-- Truncation toward zero, the semantics of numpy .astype(int) on a float. -/
def astypeInt (q : ℚ) : ℤ :=
  if 0 ≤ q then ⌊q⌋ else ⌈q⌉

/-- Lookup modelling Python dict(zip(names, values))[key]: the zip truncates
to the shorter of the two lists, and a later duplicate key overwrites an
earlier one, so the search prefers the match found in the tail. -/
def dictZip : List String → List ℚ → String → Option ℚ
  | n :: ns, v :: vs, k =>
    match dictZip ns vs k with
    | some w => some w
    | none => if n = k then some v else none
  | _, _, _ => none

/-- Support of numpy binomial(n, p): the outcome is an integer count between
0 and the number of trials, and with success probability exactly 0 the
outcome is forced to 0. -/
def binomSupport (n : ℤ) (p : ℚ) (k : ℕ) : Prop :=
  (k : ℤ) ≤ n ∧ (p = 0 → k = 0)

instance (n : ℤ) (p : ℚ) (k : ℕ) : Decidable (binomSupport n p k) := by
  unfold binomSupport; infer_instance

/-- Support of numpy poisson(mean): a mean of exactly 0 forces the outcome 0. -/
def poissonSupport (mean : ℚ) (k : ℕ) : Prop :=
  mean = 0 → k = 0

instance (mean : ℚ) (k : ℕ) : Decidable (poissonSupport mean k) := by
  unfold poissonSupport; infer_instance

/-- The documented default 0.1 used by param.get for the nu_beta
volatility when the name is absent. -/
def nuBetaDefault : ℚ := 1/10

/-- One particle row of the SIR/SIRS ensemble: columns
[S (Susceptible), I (Infected), R (Removed), NI (new infected),
B (transmission rate)]. -/
structure SIRState where
  S : ℚ
  I : ℚ
  R : ℚ
  NI : ℚ
  B : ℚ
deriving Repr, DecidableEq

/-- Outcomes of the random draws used by stochastic_sir_model for one
particle: the two binomial counts and the standard-normal value z. -/
structure SIRDraw where
  ySI : ℕ
  yIR : ℕ
  z : ℚ
deriving Repr, DecidableEq

/-- Transition probability S → I of one particle:
P_SI = 1 - exp(-B * I / N * dt) with N = S + I + R (src/models.py line 49). -/
def P_SI (rexp : ℚ → ℚ) (dt : ℚ) (y : SIRState) : ℚ :=
  1 - rexp (-y.B * y.I / (y.S + y.I + y.R) * dt)

/-- Transition probability I → R: P_IR = 1 - exp(-gamma * dt) (line 50). -/
def P_IR (rexp : ℚ → ℚ) (dt gamma : ℚ) : ℚ :=
  1 - rexp (-gamma * dt)

/-- Transition probability R → S of the SIRS model:
P_RS = 1 - exp(-alpha * dt) (line 118). -/
def P_RS (rexp : ℚ → ℚ) (dt alpha : ℚ) : ℚ :=
  1 - rexp (-alpha * dt)

/-- The draws of one SIR particle lie in the support of the distributions
the code samples from: Y_SI ~ binomial(S.astype(int), P_SI) and
Y_IR ~ binomial(I.astype(int), P_IR). -/
def sirDrawSupport (rexp : ℚ → ℚ) (dt gamma : ℚ) (y : SIRState) (d : SIRDraw) : Prop :=
  binomSupport (astypeInt y.S) (P_SI rexp dt y) d.ySI ∧
  binomSupport (astypeInt y.I) (P_IR rexp dt gamma) d.yIR

instance (rexp : ℚ → ℚ) (dt gamma : ℚ) (y : SIRState) (d : SIRDraw) :
    Decidable (sirDrawSupport rexp dt gamma y d) := by
  unfold sirDrawSupport; infer_instance

/-- Per-particle update of stochastic_sir_model (src/models.py lines 57-71):
S_next = S - Y_SI, I_next = I + Y_SI - Y_IR, R_next = R + Y_IR,
NI_next = Y_SI, B_next = B * exp(nu_beta * Z * dt), followed by the
element-wise clamp np.maximum(y_next, 0). -/
def sirStep (rexp : ℚ → ℚ) (nu_beta dt : ℚ) (y : SIRState) (d : SIRDraw) : SIRState :=
  let S_next := y.S - d.ySI
  let I_next := y.I + d.ySI - d.yIR
  let R_next := y.R + d.yIR
  let B_next := y.B * rexp (nu_beta * d.z * dt)
  let NI_next : ℚ := d.ySI
  { S := max S_next 0, I := max I_next 0, R := max R_next 0,
    NI := max NI_next 0, B := max B_next 0 }

/-- stochastic_sir_model (src/models.py lines 13-71), one call on the whole
ensemble. gamma = param['gamma'] raises KeyError when absent (modelled by
none); nu_beta = param.get('nu_beta', 0.1). gamma and the probabilities it
determines only parameterize the distributions of the binomial outcomes,
which the embedding receives as the draws argument. -/
def stochastic_sir_model (rexp : ℚ → ℚ) (y : List SIRState) (theta : List ℚ)
    (theta_names : List String) (dt : ℚ) (draws : List SIRDraw) :
    Option (List SIRState) :=
  match dictZip theta_names theta "gamma" with
  | none => none
  | some _ =>
    let nu_beta := (dictZip theta_names theta "nu_beta").getD nuBetaDefault
    some (List.zipWith (sirStep rexp nu_beta dt) y draws)

/-- Outcomes of the random draws used by stochastic_sirs_model for one
particle: the three binomial counts and the standard-normal value z. -/
structure SIRSDraw where
  ySI : ℕ
  yIR : ℕ
  yRS : ℕ
  z : ℚ
deriving Repr, DecidableEq

/-- The draws of one SIRS particle lie in the support of the distributions
the code samples from (src/models.py lines 121-123). -/
def sirsDrawSupport (rexp : ℚ → ℚ) (dt gamma alpha : ℚ) (y : SIRState) (d : SIRSDraw) : Prop :=
  binomSupport (astypeInt y.S) (P_SI rexp dt y) d.ySI ∧
  binomSupport (astypeInt y.I) (P_IR rexp dt gamma) d.yIR ∧
  binomSupport (astypeInt y.R) (P_RS rexp dt alpha) d.yRS

instance (rexp : ℚ → ℚ) (dt gamma alpha : ℚ) (y : SIRState) (d : SIRSDraw) :
    Decidable (sirsDrawSupport rexp dt gamma alpha y d) := by
  unfold sirsDrawSupport; infer_instance

/-- The fixed natural birth/death rate of the SIRS model,
mu = 1 / (80 * 52) (src/models.py line 113). -/
def sirsMu : ℚ := 1 / (80 * 52)

/-- Per-particle update of stochastic_sirs_model (src/models.py lines
126-140): S_next = S - Y_SI + mu*(N - S)*dt + Y_RS,
I_next = I + Y_SI - Y_IR - mu*I*dt, R_next = R + Y_IR - mu*R*dt - Y_RS,
NI_next = Y_SI, B_next = B * exp(nu_beta * Z * dt), followed by the
element-wise clamp np.maximum(y_next, 0). -/
def sirsStep (rexp : ℚ → ℚ) (nu_beta dt : ℚ) (y : SIRState) (d : SIRSDraw) : SIRState :=
  let N := y.S + y.I + y.R
  let S_next := y.S - d.ySI + sirsMu * (N - y.S) * dt + d.yRS
  let I_next := y.I + d.ySI - d.yIR - sirsMu * y.I * dt
  let R_next := y.R + d.yIR - sirsMu * y.R * dt - d.yRS
  let B_next := y.B * rexp (nu_beta * d.z * dt)
  let NI_next : ℚ := d.ySI
  { S := max S_next 0, I := max I_next 0, R := max R_next 0,
    NI := max NI_next 0, B := max B_next 0 }

/-- stochastic_sirs_model (src/models.py lines 77-140), one call on the
whole ensemble. gamma = param['gamma'] and nu_beta = param['nu_beta'] raise
KeyError when absent (modelled by none); alpha = param.get('alpha', 0).
gamma and alpha only parameterize the distributions of the binomial
outcomes, which the embedding receives as the draws argument. -/
def stochastic_sirs_model (rexp : ℚ → ℚ) (y : List SIRState) (theta : List ℚ)
    (theta_names : List String) (dt : ℚ) (draws : List SIRSDraw) :
    Option (List SIRState) :=
  match dictZip theta_names theta "gamma" with
  | none => none
  | some _ =>
    match dictZip theta_names theta "nu_beta" with
    | none => none
    | some nu_beta => some (List.zipWith (sirsStep rexp nu_beta dt) y draws)

/-- One particle row of the Hawkes (dthp_model) ensemble: columns
[lm_I (infection intensity), C_I (cumulative infections),
Rt (reproduction number)]. -/
structure DTHPState where
  lm_I : ℚ
  C_I : ℚ
  Rt : ℚ
deriving Repr, DecidableEq

/-- Outcomes of the random draws used by dthp_model for one particle:
the standard-normal value z for the Rt walk and the Poisson count p. -/
structure DTHPDraw where
  z : ℚ
  p : ℕ
deriving Repr, DecidableEq

/-- The convolution loop of dthp_model (src/models.py lines 175-177):
for ti in range(t), accumulate
observed_data[ti] * omega_I * (1 - omega_I)^(t - ti - 1), starting from
the lm_I accumulator reset to 0. The result is shared by all particles. -/
def lambdaConv (omega_I : ℚ) (obs : List ℚ) (t : ℕ) : ℚ :=
  (List.range t).foldl
    (fun acc ti => acc + obs.getD ti 0 * (omega_I * (1 - omega_I) ^ (t - ti - 1))) 0

/-- Rt after the geometric random-walk update of one particle:
Rt * exp(nu_beta * Z) (src/models.py line 174). -/
def dthpRt (rexp : ℚ → ℚ) (nu_beta : ℚ) (s : DTHPState) (d : DTHPDraw) : ℚ :=
  s.Rt * rexp (nu_beta * d.z)

/-- Poisson mean of one particle: (1 - C_I / N) * Rt * lm_I with the
updated Rt and the convolution value lam (src/models.py line 179). -/
def dthpMean (rexp : ℚ → ℚ) (nu_beta N lam : ℚ) (s : DTHPState) (d : DTHPDraw) : ℚ :=
  (1 - s.C_I / N) * dthpRt rexp nu_beta s d * lam

/-- Per-particle output row of dthp_model (src/models.py lines 179-184):
the Poisson outcome overwrites lm_I, C_I += lm_I, Rt keeps its updated
value. -/
def dthpStep (rexp : ℚ → ℚ) (nu_beta : ℚ) (s : DTHPState) (d : DTHPDraw) : DTHPState :=
  { lm_I := d.p, C_I := s.C_I + d.p, Rt := dthpRt rexp nu_beta s d }

/-- dthp_model (src/models.py lines 147-186), one call on the whole
ensemble. omega_I = param['omega_I'] raises KeyError when absent;
nu_beta = param.get('nu_beta', 0.1). The loop reads
observed_data['obs'].iloc[ti] for ti in range(t), which raises when the
series is shorter than t. np.random.poisson raises ValueError when any
particle's mean is negative; both exceptional exits are modelled by none. -/
def dthp_model (rexp : ℚ → ℚ) (state : List DTHPState) (theta : List ℚ)
    (_state_names theta_names : List String) (obs : List ℚ) (t : ℕ) (N : ℚ)
    (draws : List DTHPDraw) : Option (List DTHPState) :=
  match dictZip theta_names theta "omega_I" with
  | none => none
  | some omega_I =>
    let nu_beta := (dictZip theta_names theta "nu_beta").getD nuBetaDefault
    if t ≤ obs.length then
      let lam := lambdaConv omega_I obs t
      if (state.zip draws).all
          (fun sd => decide (0 ≤ dthpMean rexp nu_beta N lam sd.1 sd.2)) then
        some ((state.zip draws).map (fun sd => dthpStep rexp nu_beta sd.1 sd.2))
      else none
    else none

/-- Every column of an SIR/SIRS particle row is non-negative. -/
def SIRState.nonneg (s : SIRState) : Prop :=
  0 ≤ s.S ∧ 0 ≤ s.I ∧ 0 ≤ s.R ∧ 0 ≤ s.NI ∧ 0 ≤ s.B

instance (s : SIRState) : Decidable (SIRState.nonneg s) := by
  unfold SIRState.nonneg; infer_instance

/-- Every column of a Hawkes particle row is non-negative. -/
def DTHPState.nonneg (s : DTHPState) : Prop :=
  0 ≤ s.lm_I ∧ 0 ≤ s.C_I ∧ 0 ≤ s.Rt

instance (s : DTHPState) : Decidable (DTHPState.nonneg s) := by
  unfold DTHPState.nonneg; infer_instance

/-! ## Helper lemmas -/

theorem dictZip_eq_none_of_not_mem (ns : List String) (vs : List ℚ) (k : String)
    (h : k ∉ ns) : dictZip ns vs k = none := by
  induction ns generalizing vs with
  | nil => cases vs <;> rfl
  | cons n ns ih =>
    cases vs with
    | nil => rfl
    | cons v vs =>
      have hn : n ≠ k := fun he => h (he ▸ List.mem_cons_self n ns)
      have hns : k ∉ ns := fun hm => h (List.mem_cons_of_mem n hm)
      simp only [dictZip, ih vs hns, if_neg hn]

theorem cast_le_of_le_astypeInt {q : ℚ} (hq : 0 ≤ q) {k : ℕ}
    (h : (k : ℤ) ≤ astypeInt q) : (k : ℚ) ≤ q := by
  rw [astypeInt, if_pos hq] at h
  have h2 : ((k : ℤ) : ℚ) ≤ ((⌊q⌋ : ℤ) : ℚ) := Int.cast_le.mpr h
  push_cast at h2
  exact h2.trans (Int.floor_le q)

theorem stochastic_sir_model_eq_some {rexp : ℚ → ℚ} {y : List SIRState}
    {theta : List ℚ} {theta_names : List String} {dt : ℚ} {draws : List SIRDraw}
    {out : List SIRState}
    (hout : stochastic_sir_model rexp y theta theta_names dt draws = some out) :
    out = List.zipWith
      (sirStep rexp ((dictZip theta_names theta "nu_beta").getD nuBetaDefault) dt) y draws := by
  unfold stochastic_sir_model at hout
  cases hg : dictZip theta_names theta "gamma" with
  | none => rw [hg] at hout; simp at hout
  | some g => rw [hg] at hout; simp at hout; exact hout.symm

theorem stochastic_sirs_model_eq_some {rexp : ℚ → ℚ} {y : List SIRState}
    {theta : List ℚ} {theta_names : List String} {dt : ℚ} {draws : List SIRSDraw}
    {out : List SIRState} {nu_beta : ℚ}
    (hnu : dictZip theta_names theta "nu_beta" = some nu_beta)
    (hout : stochastic_sirs_model rexp y theta theta_names dt draws = some out) :
    out = List.zipWith (sirsStep rexp nu_beta dt) y draws := by
  unfold stochastic_sirs_model at hout
  cases hg : dictZip theta_names theta "gamma" with
  | none => rw [hg] at hout; simp at hout
  | some g => rw [hg, hnu] at hout; simp at hout; exact hout.symm

theorem sirs_model_some_nu {rexp : ℚ → ℚ} {y : List SIRState}
    {theta : List ℚ} {theta_names : List String} {dt : ℚ} {draws : List SIRSDraw}
    {out : List SIRState}
    (hout : stochastic_sirs_model rexp y theta theta_names dt draws = some out) :
    ∃ nu_beta, dictZip theta_names theta "nu_beta" = some nu_beta := by
  unfold stochastic_sirs_model at hout
  cases hg : dictZip theta_names theta "gamma" with
  | none => rw [hg] at hout; simp at hout
  | some g =>
    rw [hg] at hout
    cases hn : dictZip theta_names theta "nu_beta" with
    | none => rw [hn] at hout; simp at hout
    | some nb => exact ⟨nb, rfl⟩

theorem dthp_model_eq_some {rexp : ℚ → ℚ} {state : List DTHPState} {theta : List ℚ}
    {sn tn : List String} {obs : List ℚ} {t : ℕ} {N : ℚ} {draws : List DTHPDraw}
    {out : List DTHPState}
    (hout : dthp_model rexp state theta sn tn obs t N draws = some out) :
    ∃ omega_I, dictZip tn theta "omega_I" = some omega_I ∧ t ≤ obs.length ∧
      ((state.zip draws).all (fun sd =>
        decide (0 ≤ dthpMean rexp ((dictZip tn theta "nu_beta").getD nuBetaDefault) N
          (lambdaConv omega_I obs t) sd.1 sd.2)) = true) ∧
      out = (state.zip draws).map (fun sd =>
        dthpStep rexp ((dictZip tn theta "nu_beta").getD nuBetaDefault) sd.1 sd.2) := by
  unfold dthp_model at hout
  cases hg : dictZip tn theta "omega_I" with
  | none => rw [hg] at hout; simp at hout
  | some w =>
    rw [hg] at hout
    simp only at hout
    by_cases hlen : t ≤ obs.length
    · rw [if_pos hlen] at hout
      cases hall : (state.zip draws).all (fun sd =>
          decide (0 ≤ dthpMean rexp ((dictZip tn theta "nu_beta").getD nuBetaDefault) N
            (lambdaConv w obs t) sd.1 sd.2)) with
      | false => rw [hall] at hout; simp at hout
      | true =>
        rw [hall] at hout
        simp at hout
        exact ⟨w, rfl, hlen, hall, hout.symm⟩
    · rw [if_neg hlen] at hout; simp at hout

theorem sirStep_nonneg (rexp : ℚ → ℚ) (nu_beta dt : ℚ) (y : SIRState) (d : SIRDraw) :
    (sirStep rexp nu_beta dt y d).nonneg :=
  ⟨le_max_right _ 0, le_max_right _ 0, le_max_right _ 0, le_max_right _ 0, le_max_right _ 0⟩

theorem sirsStep_nonneg (rexp : ℚ → ℚ) (nu_beta dt : ℚ) (y : SIRState) (d : SIRSDraw) :
    (sirsStep rexp nu_beta dt y d).nonneg :=
  ⟨le_max_right _ 0, le_max_right _ 0, le_max_right _ 0, le_max_right _ 0, le_max_right _ 0⟩

theorem sirStep_sum (rexp : ℚ → ℚ) (nu_beta dt : ℚ) (y : SIRState) (d : SIRDraw)
    (hS : 0 ≤ y.S) (hI : 0 ≤ y.I) (hR : 0 ≤ y.R)
    (h1 : (d.ySI : ℤ) ≤ astypeInt y.S) (h2 : (d.yIR : ℤ) ≤ astypeInt y.I) :
    (sirStep rexp nu_beta dt y d).S + (sirStep rexp nu_beta dt y d).I +
      (sirStep rexp nu_beta dt y d).R = y.S + y.I + y.R := by
  have hSI := cast_le_of_le_astypeInt hS h1
  have hIR := cast_le_of_le_astypeInt hI h2
  have h3 : (0:ℚ) ≤ (d.ySI : ℚ) := Nat.cast_nonneg _
  have h4 : (0:ℚ) ≤ (d.yIR : ℚ) := Nat.cast_nonneg _
  simp only [sirStep]
  rw [max_eq_left (by linarith), max_eq_left (by linarith), max_eq_left (by linarith)]
  ring

/-- Claim C1: for every valid input ensemble (all compartment/count columns
non-negative) and every outcome of the random draws, every column of the
state returned by each of the three kernels (stochastic_sir_model,
stochastic_sirs_model, dthp_model) is non-negative. -/
theorem all_kernel_outputs_nonneg (rexp : ℚ → ℚ) (hrexp : ∀ x, 0 ≤ rexp x) :
    (∀ (y : List SIRState) (theta : List ℚ) (tn : List String) (dt : ℚ)
        (draws : List SIRDraw) (out : List SIRState),
        (∀ j (hj : j < y.length), y[j].nonneg) →
        stochastic_sir_model rexp y theta tn dt draws = some out →
        ∀ i (hi : i < out.length), out[i].nonneg) ∧
    (∀ (y : List SIRState) (theta : List ℚ) (tn : List String) (dt : ℚ)
        (draws : List SIRSDraw) (out : List SIRState),
        (∀ j (hj : j < y.length), y[j].nonneg) →
        stochastic_sirs_model rexp y theta tn dt draws = some out →
        ∀ i (hi : i < out.length), out[i].nonneg) ∧
    (∀ (state : List DTHPState) (theta : List ℚ) (sn tn : List String)
        (obs : List ℚ) (t : ℕ) (N : ℚ) (draws : List DTHPDraw) (out : List DTHPState),
        (∀ j (hj : j < state.length), state[j].nonneg) →
        dthp_model rexp state theta sn tn obs t N draws = some out →
        ∀ i (hi : i < out.length), out[i].nonneg) := by
  refine ⟨?_, ?_, ?_⟩
  · intro y theta tn dt draws out _hin hout i hi
    obtain rfl := stochastic_sir_model_eq_some hout
    simp only [List.getElem_zipWith]
    exact sirStep_nonneg _ _ _ _ _
  · intro y theta tn dt draws out _hin hout i hi
    obtain ⟨nb, hnb⟩ := sirs_model_some_nu hout
    obtain rfl := stochastic_sirs_model_eq_some hnb hout
    simp only [List.getElem_zipWith]
    exact sirsStep_nonneg _ _ _ _ _
  · intro state theta sn tn obs t N draws out hin hout i hi
    obtain ⟨w, hw, hlen, hall, hout⟩ := dthp_model_eq_some hout
    subst hout
    have hiz : i < (state.zip draws).length := by simpa using hi
    have his : i < state.length := by
      rw [List.length_zip] at hiz; exact lt_of_lt_of_le hiz (min_le_left _ _)
    have hid : i < draws.length := by
      rw [List.length_zip] at hiz; exact lt_of_lt_of_le hiz (min_le_right _ _)
    simp only [List.getElem_map, List.getElem_zip]
    exact ⟨Nat.cast_nonneg _, add_nonneg (hin i his).2.1 (Nat.cast_nonneg _),
      mul_nonneg (hin i his).2.2 (hrexp _)⟩

theorem all_kernel_outputs_nonneg_witness :
    SIRState.nonneg (⟨1, 0, 1, 0, 1⟩ : SIRState) := by
  have h := (all_kernel_outputs_nonneg (fun _ => 1) (fun _ => zero_le_one)).1
    [⟨1, 0, 1, 0, 1⟩] [1] ["gamma"] 1 [⟨0, 0, 0⟩] [⟨1, 0, 1, 0, 1⟩]
    (by
      intro j hj
      simp only [List.length_singleton] at hj
      rw [Nat.lt_one_iff] at hj
      subst hj
      exact ⟨zero_le_one, le_refl 0, zero_le_one, le_refl 0, zero_le_one⟩)
    (by norm_num [stochastic_sir_model, dictZip, sirStep]) 0 (by norm_num)
  exact h

/-- Claim C2: for every input to stochastic_sir_model with S, I, R non-negative
and every outcome of the binomial and normal draws, the output satisfies
S_next + I_next + R_next = S + I + R exactly, for all values of gamma and
nu_beta (the NI and B columns excluded from the sum). -/
theorem sir_total_population_conserved (rexp : ℚ → ℚ) (y : List SIRState)
    (theta : List ℚ) (theta_names : List String) (dt : ℚ) (draws : List SIRDraw)
    (out : List SIRState)
    (hout : stochastic_sir_model rexp y theta theta_names dt draws = some out)
    (i : ℕ) (hio : i < out.length) (hiy : i < y.length) (hid : i < draws.length)
    (hS : 0 ≤ y[i].S) (hI : 0 ≤ y[i].I) (hR : 0 ≤ y[i].R)
    (hySI : (draws[i].ySI : ℤ) ≤ astypeInt y[i].S)
    (hyIR : (draws[i].yIR : ℤ) ≤ astypeInt y[i].I) :
    out[i].S + out[i].I + out[i].R = y[i].S + y[i].I + y[i].R := by
  obtain rfl := stochastic_sir_model_eq_some hout
  simp only [List.getElem_zipWith]
  exact sirStep_sum _ _ _ _ _ hS hI hR hySI hyIR

theorem sir_total_population_conserved_witness :
    (([⟨1, 1, 1, 1, 1⟩] : List SIRState))[0].S + (([⟨1, 1, 1, 1, 1⟩] : List SIRState))[0].I +
      (([⟨1, 1, 1, 1, 1⟩] : List SIRState))[0].R =
    (([⟨2, 1, 0, 0, 1⟩] : List SIRState))[0].S + (([⟨2, 1, 0, 0, 1⟩] : List SIRState))[0].I +
      (([⟨2, 1, 0, 0, 1⟩] : List SIRState))[0].R := by
  have h := sir_total_population_conserved (fun _ => 1) [⟨2, 1, 0, 0, 1⟩] [1/2] ["gamma"] 1
    [⟨1, 1, 0⟩] [⟨1, 1, 1, 1, 1⟩]
    (by norm_num [stochastic_sir_model, dictZip, sirStep]) 0
    (by norm_num) (by norm_num) (by norm_num)
    (by norm_num) (by norm_num) (by norm_num)
    (by norm_num [astypeInt]) (by norm_num [astypeInt])
  exact h

theorem lambdaConv_eq_zero (omega_I : ℚ) (obs : List ℚ) (t : ℕ)
    (hobs : ∀ ti, ti < t → obs.getD ti 0 = 0) :
    lambdaConv omega_I obs t = 0 := by
  unfold lambdaConv
  have key : ∀ (l : List ℕ) (acc : ℚ), (∀ ti ∈ l, obs.getD ti 0 = 0) →
      l.foldl (fun acc ti =>
        acc + obs.getD ti 0 * (omega_I * (1 - omega_I) ^ (t - ti - 1))) acc = acc := by
    intro l
    induction l with
    | nil => intro acc _; rfl
    | cons a l ih =>
      intro acc h
      simp only [List.foldl_cons]
      rw [h a (List.mem_cons_self a l), zero_mul, add_zero]
      exact ih acc (fun ti hti => h ti (List.mem_cons_of_mem a hti))
  exact key (List.range t) 0 (fun ti hti => hobs ti (List.mem_range.mp hti))

/-- Claim C3: for every particle passed to dthp_model whose cumulative
counter satisfies C_I = N, the Poisson mean (1 - C_I/N) * Rt * lambda_I is
0, so the returned lambda_I for that particle is 0 and its C_I is
unchanged: infections stop exactly at full depletion. -/
theorem dthp_depletion_stops_infections (rexp : ℚ → ℚ) (state : List DTHPState)
    (theta : List ℚ) (sn tn : List String) (obs : List ℚ) (t : ℕ) (N : ℚ)
    (draws : List DTHPDraw) (out : List DTHPState) (omega_I : ℚ)
    (homega : dictZip tn theta "omega_I" = some omega_I)
    (hN : N ≠ 0)
    (hout : dthp_model rexp state theta sn tn obs t N draws = some out)
    (i : ℕ) (hio : i < out.length) (his : i < state.length) (hid : i < draws.length)
    (hCi : state[i].C_I = N)
    (hsupp : poissonSupport (dthpMean rexp ((dictZip tn theta "nu_beta").getD nuBetaDefault)
        N (lambdaConv omega_I obs t) state[i] draws[i]) draws[i].p) :
    dthpMean rexp ((dictZip tn theta "nu_beta").getD nuBetaDefault) N
        (lambdaConv omega_I obs t) state[i] draws[i] = 0 ∧
    out[i].lm_I = 0 ∧ out[i].C_I = state[i].C_I := by
  have hmean : dthpMean rexp ((dictZip tn theta "nu_beta").getD nuBetaDefault) N
      (lambdaConv omega_I obs t) state[i] draws[i] = 0 := by
    unfold dthpMean
    rw [hCi, div_self hN]
    ring
  have hp : draws[i].p = 0 := hsupp hmean
  obtain ⟨w, hw, hlen, hall, houte⟩ := dthp_model_eq_some hout
  subst houte
  refine ⟨hmean, ?_, ?_⟩ <;>
    simp [List.getElem_map, List.getElem_zip, dthpStep, hp]

theorem dthp_depletion_stops_infections_witness :
    dthpMean (fun _ => 1) ((dictZip ["omega_I"] [1/2] "nu_beta").getD nuBetaDefault) 5
        (lambdaConv (1/2) [] 0) ((⟨0, 5, 1⟩ : DTHPState)) ((⟨0, 0⟩ : DTHPDraw)) = 0 ∧
    (([⟨0, 5, 1⟩] : List DTHPState))[0].lm_I = 0 ∧
    (([⟨0, 5, 1⟩] : List DTHPState))[0].C_I = (([⟨0, 5, 1⟩] : List DTHPState))[0].C_I := by
  have h := dthp_depletion_stops_infections (fun _ => 1) [⟨0, 5, 1⟩] [1/2] [] ["omega_I"]
    [] 0 5 [⟨0, 0⟩] [⟨0, 5, 1⟩] (1/2) rfl (by norm_num)
    (by norm_num [dthp_model, dictZip, lambdaConv, dthpMean, dthpRt, dthpStep])
    0 (by norm_num) (by norm_num) (by norm_num) rfl (fun _ => rfl)
  exact h

/-- Claim C4: for every call to dthp_model in which every entry of the
observed history at indices 0..t-1 is 0, the convolution accumulates
lambda_I to 0 for every particle regardless of omega_I, the resulting
Poisson draw is 0, and the returned C_I equals the input C_I. -/
theorem dthp_zero_history_is_absorbing (rexp : ℚ → ℚ) (state : List DTHPState)
    (theta : List ℚ) (sn tn : List String) (obs : List ℚ) (t : ℕ) (N : ℚ)
    (draws : List DTHPDraw) (omega_I : ℚ)
    (homega : dictZip tn theta "omega_I" = some omega_I)
    (hlen : t ≤ obs.length)
    (hobs : ∀ ti, ti < t → obs.getD ti 0 = 0)
    (hsupp : ∀ i (his : i < state.length) (hid : i < draws.length),
        poissonSupport (dthpMean rexp ((dictZip tn theta "nu_beta").getD nuBetaDefault) N
          (lambdaConv omega_I obs t) state[i] draws[i]) draws[i].p) :
    lambdaConv omega_I obs t = 0 ∧
    ∃ out, dthp_model rexp state theta sn tn obs t N draws = some out ∧
      ∀ i (hio : i < out.length) (his : i < state.length) (hid : i < draws.length),
        out[i].lm_I = 0 ∧ out[i].C_I = state[i].C_I := by
  have hlam : lambdaConv omega_I obs t = 0 := lambdaConv_eq_zero omega_I obs t hobs
  have hmean0 : ∀ (s : DTHPState) (d : DTHPDraw),
      dthpMean rexp ((dictZip tn theta "nu_beta").getD nuBetaDefault) N
        (lambdaConv omega_I obs t) s d = 0 := by
    intro s d
    unfold dthpMean
    rw [hlam, mul_zero]
  have hall : ((state.zip draws).all (fun sd =>
      decide (0 ≤ dthpMean rexp ((dictZip tn theta "nu_beta").getD nuBetaDefault) N
        (lambdaConv omega_I obs t) sd.1 sd.2)) = true) := by
    rw [List.all_eq_true]
    intro sd _hsd
    rw [decide_eq_true_eq, hmean0 sd.1 sd.2]
  refine ⟨hlam, (state.zip draws).map (fun sd =>
    dthpStep rexp ((dictZip tn theta "nu_beta").getD nuBetaDefault) sd.1 sd.2), ?_, ?_⟩
  · simp [dthp_model, homega, hlen, hall]
  · intro i hio his hid
    have hp : draws[i].p = 0 := hsupp i his hid (hmean0 state[i] draws[i])
    constructor <;> simp [List.getElem_map, List.getElem_zip, dthpStep, hp]

theorem dthp_zero_history_is_absorbing_witness :
    lambdaConv (1/2) [0, 0] 2 = 0 :=
  (dthp_zero_history_is_absorbing (fun _ => 1) [⟨0, 3, 2⟩] [1/2] [] ["omega_I"]
    [0, 0] 2 7 [⟨0, 0⟩] (1/2) rfl (by norm_num)
    (by
      intro ti hti
      match ti with
      | 0 => rfl
      | 1 => rfl
      | (n+2) => exact absurd hti (by omega))
    (by
      intro i his hid
      have hi0 : i = 0 := Nat.lt_one_iff.mp (by simpa using his)
      subst hi0
      exact fun _ => rfl)).1

theorem sirsStep_sum (rexp : ℚ → ℚ) (nu_beta dt : ℚ) (y : SIRState) (d : SIRSDraw)
    (hS : 0 ≤ y.S) (hI : 0 ≤ y.I) (hR : 0 ≤ y.R) (hdt : 0 ≤ dt)
    (h1 : (d.ySI : ℤ) ≤ astypeInt y.S)
    (hInext : 0 ≤ y.I + d.ySI - d.yIR - sirsMu * y.I * dt)
    (hRnext : 0 ≤ y.R + d.yIR - sirsMu * y.R * dt - d.yRS) :
    (sirsStep rexp nu_beta dt y d).S + (sirsStep rexp nu_beta dt y d).I +
      (sirsStep rexp nu_beta dt y d).R
      = y.S + y.I + y.R + sirsMu * ((y.S + y.I + y.R) - y.S - y.I - y.R) * dt := by
  have hSI := cast_le_of_le_astypeInt hS h1
  have h3 : (0:ℚ) ≤ (d.yRS : ℚ) := Nat.cast_nonneg _
  have hmuIR : 0 ≤ sirsMu * (y.I + y.R) * dt :=
    mul_nonneg (mul_nonneg (by norm_num [sirsMu]) (by linarith)) hdt
  have hSnext : 0 ≤ y.S - (d.ySI : ℚ) + sirsMu * ((y.S + y.I + y.R) - y.S) * dt + d.yRS := by
    have he : sirsMu * ((y.S + y.I + y.R) - y.S) * dt = sirsMu * (y.I + y.R) * dt := by ring
    rw [he]
    linarith
  simp only [sirsStep]
  rw [max_eq_left (by linarith), max_eq_left (by linarith), max_eq_left (by linarith)]
  ring

/-- The concrete exponential-like function used by the counterexamples: it
agrees with the real exponential at 0 and takes a value inside (0, 1) on
negative arguments, as the real exponential does (exp(-1) is about 0.37). -/
def cexRexp : ℚ → ℚ := fun x => if x = 0 then 1 else 1/2

/-- Counterexample to claim C5 as stated: a valid SIRS input (S, I, R
non-negative, alpha = 0, nu_beta supplied) and an in-support outcome of the
binomial draws for which the returned sum S + I + R differs from
S + I + R + mu * (N - S - I - R) * dt, because the clamp
np.maximum(y_next, 0) fires on the I column (I_next = -mu*I*dt < 0). -/
theorem sirs_sum_claim_counterexample :
    sirsDrawSupport cexRexp 1 1 0 (⟨0, 1, 0, 0, 0⟩ : SIRState) (⟨0, 1, 0, 0⟩ : SIRSDraw) ∧
    (dictZip ["gamma", "nu_beta"] [1, 0] "alpha").getD 0 = 0 ∧
    stochastic_sirs_model cexRexp [⟨0, 1, 0, 0, 0⟩] [1, 0] ["gamma", "nu_beta"] 1
      [⟨0, 1, 0, 0⟩] = some [⟨1/4160, 0, 1, 0, 0⟩] ∧
    ¬((([⟨1/4160, 0, 1, 0, 0⟩] : List SIRState))[0].S +
      (([⟨1/4160, 0, 1, 0, 0⟩] : List SIRState))[0].I +
      (([⟨1/4160, 0, 1, 0, 0⟩] : List SIRState))[0].R
      = (0:ℚ) + 1 + 0 + sirsMu * (((0:ℚ) + 1 + 0) - 0 - 1 - 0) * 1) := by
  have hg : dictZip ["gamma", "nu_beta"] [1, 0] "gamma" = some 1 := by decide
  have hn : dictZip ["gamma", "nu_beta"] [1, 0] "nu_beta" = some 0 := by decide
  refine ⟨?_, ?_, ?_, ?_⟩
  · norm_num [sirsDrawSupport, binomSupport, P_SI, P_IR, P_RS, astypeInt, cexRexp]
  · decide
  · norm_num [stochastic_sirs_model, hg, hn, sirsStep, sirsMu, cexRexp, max_def]
  · norm_num [sirsMu]

/-- Claim C5 (amended): for every input to stochastic_sirs_model with
S, I, R non-negative, alpha = 0, nu_beta supplied and 0 <= dt, and every
in-support outcome of the binomial draws SUCH THAT the pre-clamp I and R
updates are non-negative (the clamp np.maximum(y_next, 0) does not fire),
the output satisfies S_next + I_next + R_next
= S + I + R + mu * (N - S - I - R) * dt with N = S + I + R. -/
theorem sirs_sum_with_demography (rexp : ℚ → ℚ) (y : List SIRState)
    (theta : List ℚ) (theta_names : List String) (dt : ℚ) (draws : List SIRSDraw)
    (out : List SIRState) (gamma : ℚ)
    (hgamma : dictZip theta_names theta "gamma" = some gamma)
    (halpha : (dictZip theta_names theta "alpha").getD 0 = 0)
    (hrexp0 : rexp 0 = 1)
    (hout : stochastic_sirs_model rexp y theta theta_names dt draws = some out)
    (i : ℕ) (hio : i < out.length) (hiy : i < y.length) (hid : i < draws.length)
    (hS : 0 ≤ y[i].S) (hI : 0 ≤ y[i].I) (hR : 0 ≤ y[i].R) (hdt : 0 ≤ dt)
    (hsupp : sirsDrawSupport rexp dt gamma ((dictZip theta_names theta "alpha").getD 0)
      y[i] draws[i])
    (hInext : 0 ≤ y[i].I + draws[i].ySI - draws[i].yIR - sirsMu * y[i].I * dt)
    (hRnext : 0 ≤ y[i].R + draws[i].yIR - sirsMu * y[i].R * dt - draws[i].yRS) :
    out[i].S + out[i].I + out[i].R
      = y[i].S + y[i].I + y[i].R
        + sirsMu * ((y[i].S + y[i].I + y[i].R) - y[i].S - y[i].I - y[i].R) * dt := by
  obtain ⟨nb, hnb⟩ := sirs_model_some_nu hout
  obtain rfl := stochastic_sirs_model_eq_some hnb hout
  simp only [List.getElem_zipWith]
  exact sirsStep_sum _ _ _ _ _ hS hI hR hdt hsupp.1.1 hInext hRnext

theorem sirs_sum_with_demography_witness :
    (([⟨2081/2080, 4159/4160, 4159/4160, 0, 1⟩] : List SIRState))[0].S +
      (([⟨2081/2080, 4159/4160, 4159/4160, 0, 1⟩] : List SIRState))[0].I +
      (([⟨2081/2080, 4159/4160, 4159/4160, 0, 1⟩] : List SIRState))[0].R
      = (([⟨1, 1, 1, 0, 1⟩] : List SIRState))[0].S + (([⟨1, 1, 1, 0, 1⟩] : List SIRState))[0].I +
        (([⟨1, 1, 1, 0, 1⟩] : List SIRState))[0].R
        + sirsMu * (((([⟨1, 1, 1, 0, 1⟩] : List SIRState))[0].S +
            (([⟨1, 1, 1, 0, 1⟩] : List SIRState))[0].I +
            (([⟨1, 1, 1, 0, 1⟩] : List SIRState))[0].R) -
          (([⟨1, 1, 1, 0, 1⟩] : List SIRState))[0].S -
          (([⟨1, 1, 1, 0, 1⟩] : List SIRState))[0].I -
          (([⟨1, 1, 1, 0, 1⟩] : List SIRState))[0].R) * 1 := by
  have hg : dictZip ["gamma", "nu_beta"] [1, 0] "gamma" = some 1 := by decide
  have hn : dictZip ["gamma", "nu_beta"] [1, 0] "nu_beta" = some 0 := by decide
  have h := sirs_sum_with_demography (fun _ => 1) [⟨1, 1, 1, 0, 1⟩] [1, 0]
    ["gamma", "nu_beta"] 1 [⟨0, 0, 0, 0⟩] [⟨2081/2080, 4159/4160, 4159/4160, 0, 1⟩] 1
    hg (by decide) rfl
    (by norm_num [stochastic_sirs_model, hg, hn, sirsStep, sirsMu, max_def])
    0 (by norm_num) (by norm_num) (by norm_num)
    (by norm_num) (by norm_num) (by norm_num) (by norm_num)
    (by norm_num [sirsDrawSupport, binomSupport, P_SI, P_IR, P_RS, astypeInt, dictZip])
    (by norm_num [sirsMu]) (by norm_num [sirsMu])
  exact h

/-- Claim C6: for every call in which a required parameter name is absent
from theta_names (gamma for stochastic_sir_model; gamma or nu_beta for
stochastic_sirs_model; omega_I for dthp_model), the kernel raises an error
(fails fast) instead of returning an updated state with a silently
defaulted value. -/
theorem missing_required_param_errors (rexp : ℚ → ℚ) :
    (∀ (y : List SIRState) (theta : List ℚ) (tn : List String) (dt : ℚ)
        (draws : List SIRDraw), "gamma" ∉ tn →
        stochastic_sir_model rexp y theta tn dt draws = none) ∧
    (∀ (y : List SIRState) (theta : List ℚ) (tn : List String) (dt : ℚ)
        (draws : List SIRSDraw), ("gamma" ∉ tn ∨ "nu_beta" ∉ tn) →
        stochastic_sirs_model rexp y theta tn dt draws = none) ∧
    (∀ (state : List DTHPState) (theta : List ℚ) (sn tn : List String)
        (obs : List ℚ) (t : ℕ) (N : ℚ) (draws : List DTHPDraw), "omega_I" ∉ tn →
        dthp_model rexp state theta sn tn obs t N draws = none) := by
  refine ⟨?_, ?_, ?_⟩
  · intro y theta tn dt draws h
    unfold stochastic_sir_model
    rw [dictZip_eq_none_of_not_mem tn theta "gamma" h]
  · intro y theta tn dt draws h
    unfold stochastic_sirs_model
    rcases h with h | h
    · rw [dictZip_eq_none_of_not_mem tn theta "gamma" h]
    · cases hg : dictZip tn theta "gamma" with
      | none => rfl
      | some g => rw [dictZip_eq_none_of_not_mem tn theta "nu_beta" h]
  · intro state theta sn tn obs t N draws h
    unfold dthp_model
    rw [dictZip_eq_none_of_not_mem tn theta "omega_I" h]

theorem missing_required_param_errors_witness :
    stochastic_sir_model (fun _ => 1) [] [1] ["beta"] 1 [] = none :=
  (missing_required_param_errors (fun _ => 1)).1 [] [1] ["beta"] 1 [] (by decide)

/-- Counterexample to claim C7 as stated: a dthp_model call on a valid
particle (C_I = 0 <= N = 10) and an in-support Poisson outcome (the mean is
1, not 0, so every natural number is a possible Poisson draw) whose returned
C_I = 11 exceeds the total population N = 10: C_I is not kept <= N. -/
theorem dthp_CI_bound_counterexample :
    dthp_model (fun _ => 1) [⟨0, 0, 1⟩] [1/2] [] ["omega_I"] [2] 1 10 [⟨0, 11⟩]
      = some [⟨11, 11, 1⟩] ∧
    poissonSupport (dthpMean (fun _ => 1)
      ((dictZip ["omega_I"] [1/2] "nu_beta").getD nuBetaDefault) 10
      (lambdaConv (1/2) [2] 1) (⟨0, 0, 1⟩ : DTHPState) (⟨0, 11⟩ : DTHPDraw)) 11 ∧
    ¬(([⟨11, 11, 1⟩] : List DTHPState))[0].C_I ≤ 10 := by
  have hn : dictZip ["omega_I"] [1/2] "nu_beta" = none := by decide
  refine ⟨?_, ?_, ?_⟩
  · norm_num [dthp_model, dictZip, hn, lambdaConv, dthpMean, dthpRt, dthpStep,
      List.range_succ, List.range_zero, List.foldl_cons, List.foldl_nil]
  · norm_num [poissonSupport, dthpMean, dthpRt, lambdaConv, hn,
      List.range_succ, List.range_zero, List.foldl_cons, List.foldl_nil]
  · norm_num

/-- Claim C7 (amended): across every call to dthp_model the cumulative
counter C_I is monotonically non-decreasing per particle (output C_I is the
input C_I plus the non-negative Poisson outcome); it is NOT in general
bounded by the total population N, which the code never enforces. -/
theorem dthp_CI_monotone (rexp : ℚ → ℚ) (state : List DTHPState) (theta : List ℚ)
    (sn tn : List String) (obs : List ℚ) (t : ℕ) (N : ℚ) (draws : List DTHPDraw)
    (out : List DTHPState)
    (hout : dthp_model rexp state theta sn tn obs t N draws = some out)
    (i : ℕ) (hio : i < out.length) (his : i < state.length) (hid : i < draws.length) :
    state[i].C_I ≤ out[i].C_I := by
  obtain ⟨w, hw, hlen, hall, houte⟩ := dthp_model_eq_some hout
  subst houte
  simp only [List.getElem_map, List.getElem_zip]
  exact le_add_of_nonneg_right (Nat.cast_nonneg _)

theorem dthp_CI_monotone_witness :
    (([⟨0, 3, 1⟩] : List DTHPState))[0].C_I ≤ (([⟨2, 5, 1⟩] : List DTHPState))[0].C_I := by
  have hn : dictZip ["omega_I"] [1/2] "nu_beta" = none := by decide
  have h := dthp_CI_monotone (fun _ => 1) [⟨0, 3, 1⟩] [1/2] [] ["omega_I"] [4] 1 5
    [⟨0, 2⟩] [⟨2, 5, 1⟩]
    (by norm_num [dthp_model, dictZip, hn, lambdaConv, dthpMean, dthpRt, dthpStep,
      List.range_succ, List.range_zero, List.foldl_cons, List.foldl_nil])
    0 (by norm_num) (by norm_num) (by norm_num)
  exact h

/-- Counterexample to claim C9 as stated: a stochastic_sir_model call whose
theta_names has length 2 while theta has length 1; no shape-mismatch error
is raised, the call returns an updated state (dict(zip(...)) silently drops
the unmatched name and nu_beta falls back to its default). -/
theorem shape_mismatch_no_error_counterexample :
    (["gamma", "nu_beta"] : List String).length ≠ ([1] : List ℚ).length ∧
    stochastic_sir_model (fun _ => 1) [⟨1, 0, 0, 0, 1⟩] [1] ["gamma", "nu_beta"] 1
      [⟨0, 0, 0⟩] = some [⟨1, 0, 0, 0, 1⟩] := by
  have hg : dictZip ["gamma", "nu_beta"] [1] "gamma" = some 1 := by decide
  have hn : dictZip ["gamma", "nu_beta"] [1] "nu_beta" = none := by decide
  constructor
  · norm_num
  · norm_num [stochastic_sir_model, hg, hn, sirStep, max_def]

/-- Claim C9 (amended): the kernels perform no length check between theta
and theta_names: dict(zip(...)) silently truncates to the shorter list, so
a SIR/SIRS call fails (raises) exactly when a required parameter name
(gamma; gamma or nu_beta) cannot be resolved from the zipped pairs, and
otherwise returns an updated state even when the lengths disagree. -/
theorem no_shape_mismatch_check (rexp : ℚ → ℚ) :
    (∀ (y : List SIRState) (theta : List ℚ) (tn : List String) (dt : ℚ)
        (draws : List SIRDraw),
        stochastic_sir_model rexp y theta tn dt draws = none ↔
          dictZip tn theta "gamma" = none) ∧
    (∀ (y : List SIRState) (theta : List ℚ) (tn : List String) (dt : ℚ)
        (draws : List SIRSDraw),
        stochastic_sirs_model rexp y theta tn dt draws = none ↔
          (dictZip tn theta "gamma" = none ∨ dictZip tn theta "nu_beta" = none)) := by
  constructor
  · intro y theta tn dt draws
    unfold stochastic_sir_model
    cases hg : dictZip tn theta "gamma" with
    | none => simp
    | some g => simp
  · intro y theta tn dt draws
    unfold stochastic_sirs_model
    cases hg : dictZip tn theta "gamma" with
    | none => simp
    | some g =>
      cases hn : dictZip tn theta "nu_beta" with
      | none => simp
      | some nb => simp

/-- Claim C10: for every call to dthp_model in which some particle's
Poisson mean (1 - C_I/N) * Rt * lambda_I is strictly negative — which
occurs whenever C_I > N > 0 while the updated Rt and the accumulated
intensity are positive — the call raises (np.random.poisson rejects a
negative mean) and returns no updated state, rather than clamping the mean
to 0. -/
theorem dthp_negative_mean_raises (rexp : ℚ → ℚ) (state : List DTHPState)
    (theta : List ℚ) (sn tn : List String) (obs : List ℚ) (t : ℕ) (N : ℚ)
    (draws : List DTHPDraw) (omega_I : ℚ)
    (homega : dictZip tn theta "omega_I" = some omega_I)
    (hlen : t ≤ obs.length)
    (i : ℕ) (his : i < state.length) (hid : i < draws.length)
    (hN : 0 < N) (hCN : N < state[i].C_I)
    (hRt : 0 < dthpRt rexp ((dictZip tn theta "nu_beta").getD nuBetaDefault)
      state[i] draws[i])
    (hlam : 0 < lambdaConv omega_I obs t) :
    dthp_model rexp state theta sn tn obs t N draws = none := by
  have hmean : dthpMean rexp ((dictZip tn theta "nu_beta").getD nuBetaDefault) N
      (lambdaConv omega_I obs t) state[i] draws[i] < 0 := by
    unfold dthpMean
    have h1 : 1 - state[i].C_I / N < 0 := by
      rw [sub_neg, lt_div_iff₀ hN]
      linarith
    exact mul_neg_of_neg_of_pos (mul_neg_of_neg_of_pos h1 hRt) hlam
  have hmem : ((state[i]), (draws[i])) ∈ state.zip draws := by
    have hiz : i < (state.zip draws).length := by
      rw [List.length_zip]
      exact lt_min his hid
    have hm := List.getElem_mem hiz
    rwa [List.getElem_zip] at hm
  have hall : ((state.zip draws).all (fun sd =>
      decide (0 ≤ dthpMean rexp ((dictZip tn theta "nu_beta").getD nuBetaDefault) N
        (lambdaConv omega_I obs t) sd.1 sd.2)) = false) := by
    cases hq : (state.zip draws).all (fun sd =>
        decide (0 ≤ dthpMean rexp ((dictZip tn theta "nu_beta").getD nuBetaDefault) N
          (lambdaConv omega_I obs t) sd.1 sd.2)) with
    | false => rfl
    | true =>
      exfalso
      have h2 := List.all_eq_true.mp hq _ hmem
      simp only [decide_eq_true_eq] at h2
      linarith
  simp [dthp_model, homega, hlen, hall]

theorem dthp_negative_mean_raises_witness :
    dthp_model (fun _ => 1) [⟨0, 20, 1⟩] [1/2] [] ["omega_I"] [2] 1 10 [⟨0, 0⟩] = none := by
  have hn : dictZip ["omega_I"] [1/2] "nu_beta" = none := by decide
  have h := dthp_negative_mean_raises (fun _ => 1) [⟨0, 20, 1⟩] [1/2] [] ["omega_I"]
    [2] 1 10 [⟨0, 0⟩] (1/2) rfl (by norm_num) 0 (by norm_num) (by norm_num)
    (by norm_num) (by norm_num) (by norm_num [dthpRt, hn, nuBetaDefault])
    (by norm_num [lambdaConv, List.range_succ, List.range_zero, List.foldl_cons, List.foldl_nil])
  exact h
